import Mathlib

/-
Shallow embedding of the interactive force-directed cluster graph of
src/frontend/src/components/ForceDirectedCluster.tsx, together with proofs
of the documented graph-builder and interaction-controller properties.

Coordinates are modelled as rationals.  Math.cos, Math.sin, Math.sqrt and
Math.PI are abstract parameters (structure MathPrims): none of the verified
properties depends on their numeric values, so every theorem below holds for
every instantiation of these primitives.
-/

set_option autoImplicit false

namespace LaionGraph

/-- Paper record, from the frontend type declarations (interface PaperSummary). -/
structure PaperSummary where
  id : Int
  title : Option String
  x : Option ℚ
  y : Option ℚ
  z : Option ℚ
  cluster_id : Option Int
  cluster_label : Option String
  field_subfield : Option String
  publication_year : Option Int
  classification : Option String
  deriving DecidableEq, Inhabited

/-- Cluster record, from the frontend type declarations (interface ClusterInfo). -/
structure ClusterInfo where
  cluster_id : Int
  cluster_label : String
  count : Nat
  color : String
  deriving DecidableEq, Inhabited

/-- Discriminant of the ForceNode union (type NodeType). -/
inductive NodeType where
  | cluster
  | paper
  deriving DecidableEq, Inhabited

/-- Graph node (interface ForceNode).  Optional fields of the source stay
optional here; x and y are undefined until seeded or simulated. -/
structure ForceNode where
  id : String
  type : NodeType
  clusterId : Int
  clusterLabel : String
  color : String
  paperCount : Option Nat
  paperId : Option Int
  title : Option String
  field : Option String
  year : Option Int
  x : Option ℚ
  y : Option ℚ
  fx : Option ℚ
  fy : Option ℚ
  deriving DecidableEq, Inhabited

/-- Graph edge (interface ForceLink), identified by its endpoint node ids as at
build time, before the simulation resolves them to node objects. -/
structure ForceLink where
  source : String
  target : String
  deriving DecidableEq, Inhabited

/-- Abstract stand-ins for Math.cos, Math.sin, Math.sqrt and Math.PI.  The
properties verified here hold for every instantiation, which subsumes the
floating-point behaviour of the source. -/
structure MathPrims where
  cosQ : ℚ → ℚ
  sinQ : ℚ → ℚ
  sqrtQ : ℚ → ℚ
  piQ : ℚ

/-- Build-time environment: math primitives plus the canvas dimensions. -/
structure BuildParams where
  M : MathPrims
  width : ℚ
  height : ℚ

/-- A concrete instantiation of the math primitives, used to evaluate the
definitions on concrete inputs. -/
def mathId : MathPrims := ⟨fun q => q, fun q => q, fun q => q, 0⟩

/-- Concrete build parameters for evaluation: an 800 by 600 canvas. -/
def paramsW : BuildParams := ⟨mathId, 800, 600⟩

/-- JS Map.set on an insertion-ordered association list: update the existing
entry in place, or append a fresh one. -/
def mapSet {κ α : Type} [DecidableEq κ] : List (κ × α) → κ → α → List (κ × α)
  | [], k, v => [(k, v)]
  | (k2, v2) :: rest, k, v =>
    if k2 = k then (k, v) :: rest else (k2, v2) :: mapSet rest k v

/-- JS Map.get: first (hence unique) entry for the key. -/
def mapGet {κ α : Type} [DecidableEq κ] : List (κ × α) → κ → Option α
  | [], _ => none
  | (k2, v) :: rest, k => if k2 = k then some v else mapGet rest k

/-- Grouping step of the builder: push a paper onto its cluster bucket,
creating the bucket at the end of the map on first use (lines 128-137). -/
def pushGrouped {κ α : Type} [DecidableEq κ] : List (κ × List α) → κ → α → List (κ × List α)
  | [], k, p => [(k, [p])]
  | (k2, ps) :: rest, k, p =>
    if k2 = k then (k2, ps ++ [p]) :: rest else (k2, ps) :: pushGrouped rest k p

/-- Visibility filter (lines 116-125): papers with a null cluster id are
dropped, and when the selection set is non-empty so are papers outside it. -/
def keepPaper (sel : Finset Int) (p : PaperSummary) : Bool :=
  match p.cluster_id with
  | none => false
  | some cid => if 0 < sel.card ∧ cid ∉ sel then false else true

/-- The selected papers (lines 116-125). -/
def filteredPapers (sel : Finset Int) (papers : List PaperSummary) : List PaperSummary :=
  papers.filter (keepPaper sel)

/-- Selected papers grouped by cluster id, in first-occurrence order
(lines 127-137). -/
def papersByCluster (sel : Finset Int) (papers : List PaperSummary) :
    List (Int × List PaperSummary) :=
  (filteredPapers sel papers).foldl
    (fun m p =>
      match p.cluster_id with
      | some cid => pushGrouped m cid p
      | none => m) []

/-- Ceiling division on naturals, the value Math.ceil produces on the exact
quotients of the sampling step. -/
def ceilDivNat (a b : Nat) : Nat := (a + b - 1) / b

/-- Comparator of the sampling sort (line 147): ascending numeric paper id. -/
def idLE (a b : PaperSummary) : Prop := a.id ≤ b.id

instance : DecidableRel idLE := fun a b => inferInstanceAs (Decidable (a.id ≤ b.id))

instance : IsTotal PaperSummary idLE := ⟨fun a b => Int.le_total a.id b.id⟩

instance : IsTrans PaperSummary idLE := ⟨fun _ _ _ h1 h2 => Int.le_trans h1 h2⟩

/-- Stable ascending sort of a bucket by numeric paper id (line 147). -/
def sortById (ps : List PaperSummary) : List PaperSummary :=
  List.insertionSort idLE ps

/-- Density sampling of one cluster bucket (lines 139-156): when the target
count is smaller than the bucket, keep every ceil(count/target)-th record of
the id-sorted bucket and cut to the target count. -/
def sampleCluster (densityPercent : Nat) (ps : List PaperSummary) : List PaperSummary :=
  if densityPercent < 100 then
    let targetCount := ceilDivNat (ps.length * densityPercent) 100
    if targetCount < ps.length then
      let sorted := sortById ps
      ((sorted.enum.filter
          (fun ip => ip.1 % ceilDivNat sorted.length targetCount == 0)).map
        Prod.snd).take targetCount
    else ps
  else ps

/-- The per-cluster record sets that feed node construction: grouped then
density-sampled (lines 127-156). -/
def sampledByCluster (densityPercent : Nat) (sel : Finset Int)
    (papers : List PaperSummary) : List (Int × List PaperSummary) :=
  (papersByCluster sel papers).map (fun e => (e.1, sampleCluster densityPercent e.2))

/-- Cached position of a node of the previous build (lines 168-176). -/
structure PrevPos where
  x : ℚ
  y : ℚ
  fx : Option ℚ
  fy : Option ℚ
  deriving DecidableEq, Inhabited

/-- Position cache built from the previous node array: every node with both
coordinates defined contributes its position and pin (lines 177-186). -/
def previousPositions (prev : List ForceNode) : List (String × PrevPos) :=
  prev.foldl
    (fun m n =>
      match n.x, n.y with
      | some px, some py => mapSet m n.id ⟨px, py, n.fx, n.fy⟩
      | _, _ => m) []

/-- Seed offset of the index-th of len paper nodes: a point of a small circle
of radius 30 around the cluster base (lines 206-210). -/
def spiralOffset (M : MathPrims) (index len : Nat) : ℚ × ℚ :=
  let angle : ℚ := ((index : ℚ) / (len : ℚ)) * M.piQ * 2
  (M.cosQ angle * 30, M.sinQ angle * 30)

/-- Paper node of an expanded cluster (lines 202-233): seeded at the spiral
offset around the base unless the position cache has an entry for its id. -/
def mkPaperNode (M : MathPrims) (prevPos : List (String × PrevPos)) (label color : String)
    (base : ℚ × ℚ) (len : Nat) (ip : Nat × PaperSummary) : ForceNode :=
  let paper := ip.2
  let pid := "paper-" ++ toString paper.id
  let previousPos := mapGet prevPos pid
  let off := spiralOffset M ip.1 len
  { id := pid
    type := NodeType.paper
    clusterId := paper.cluster_id.getD 0
    clusterLabel := label
    color := color
    paperCount := none
    paperId := some paper.id
    title := some (paper.title.getD "Untitled")
    field := paper.field_subfield
    year := paper.publication_year
    x := some (match previousPos with | some pp => pp.x | none => base.1 + off.1)
    y := some (match previousPos with | some pp => pp.y | none => base.2 + off.2)
    fx := match previousPos with | some pp => pp.fx | none => none
    fy := match previousPos with | some pp => pp.fy | none => none }

/-- Cluster node of a collapsed cluster (lines 278-298); memberCount is the
length of the record set handed to this step. -/
def mkClusterNode (prevPos : List (String × PrevPos)) (label color : String)
    (clusterId : Int) (memberCount : Nat) : ForceNode :=
  let nodeId := "cluster-" ++ toString clusterId
  let previousPos := mapGet prevPos nodeId
  { id := nodeId
    type := NodeType.cluster
    clusterId := clusterId
    clusterLabel := label
    color := color
    paperCount := some memberCount
    paperId := none
    title := none
    field := none
    year := none
    x := match previousPos with | some pp => some pp.x | none => none
    y := match previousPos with | some pp => some pp.y | none => none
    fx := match previousPos with | some pp => pp.fx | none => none
    fy := match previousPos with | some pp => pp.fy | none => none }

/-- Euclidean distance in the original embedding space of two records,
missing coordinates read as 0 (lines 245-249). -/
def dist3 (M : MathPrims) (a b : PaperSummary) : ℚ :=
  let dx := a.x.getD 0 - b.x.getD 0
  let dy := a.y.getD 0 - b.y.getD 0
  let dz := a.z.getD 0 - b.z.getD 0
  M.sqrtQ (dx * dx + dy * dy + dz * dz)

/-- Distances from the record at nodeIndex to every other record of the
bucket, tagged with the target index (lines 240-252). -/
def paperDistances (M : MathPrims) (ps : List PaperSummary) (nodeIndex : Nat)
    (src : PaperSummary) : List (Nat × ℚ) :=
  (ps.enum.filter (fun ti => ti.1 != nodeIndex)).map (fun ti => (ti.1, dist3 M src ti.2))

/-- Comparator of the distance sort (line 255). -/
def distLE (a b : Nat × ℚ) : Prop := a.2 ≤ b.2

instance : DecidableRel distLE := fun a b => inferInstanceAs (Decidable (a.2 ≤ b.2))

/-- Sort the candidates by distance and keep the k = 5 nearest
(lines 254-256). -/
def nearestNeighbors (M : MathPrims) (ps : List PaperSummary) (nodeIndex : Nat)
    (src : PaperSummary) : List (Nat × ℚ) :=
  (List.insertionSort distLE (paperDistances M ps nodeIndex src)).take 5

/-- Duplicate test of the link list, in either orientation (lines 264-268). -/
def linkExists (links : List ForceLink) (s t : String) : Bool :=
  links.any (fun l => (l.source == s && l.target == t) || (l.source == t && l.target == s))

/-- Push a link unless its unordered pair is already present (lines 263-274). -/
def addLinkIfNew (links : List ForceLink) (s t : String) : List ForceLink :=
  if linkExists links s t then links else links ++ [⟨s, t⟩]

/-- Push the link from the source node to the neighbor at the given bucket
index, unless the neighbor index is out of range or the unordered pair is
already present (lines 259-276). -/
def pushNeighborLink (pNodes : List ForceNode) (srcId : String)
    (ls : List ForceLink) (nb : Nat × ℚ) : List ForceLink :=
  match pNodes[nb.1]? with
  | none => ls
  | some tgt => addLinkIfNew ls srcId tgt.id

/-- Add the deduplicated k-nearest-neighbor links of one paper node
(lines 237-277). -/
def addNodeLinks (M : MathPrims) (ps : List PaperSummary) (pNodes : List ForceNode)
    (links : List ForceLink) (inode : Nat × ForceNode) : List ForceLink :=
  match ps[inode.1]? with
  | none => links
  | some src =>
    (nearestNeighbors M ps inode.1 src).foldl (pushNeighborLink pNodes inode.2.id) links

/-- Last-write-wins color map of the cluster records (lines 95-103). -/
def clusterColorMap (clusters : List ClusterInfo) : List (Int × String) :=
  clusters.foldl (fun m c => mapSet m c.cluster_id c.color) []

/-- Last-write-wins label map of the cluster records (lines 95-103). -/
def clusterLabelMap (clusters : List ClusterInfo) : List (Int × String) :=
  clusters.foldl (fun m c => mapSet m c.cluster_id c.cluster_label) []

/-- Color of a visible cluster (line 190). -/
def colorOf (colorMap : List (Int × String)) (clusterId : Int) : String :=
  (mapGet colorMap clusterId).getD "#cccccc"

/-- Label of a visible cluster (line 191). -/
def labelOf (labelMap : List (Int × String)) (clusterId : Int) : String :=
  (mapGet labelMap clusterId).getD ("Cluster " ++ toString clusterId)

/-- Seed center of an expanded cluster: the cached position of its collapsed
cluster node, or the canvas center (lines 195-198). -/
def clusterBase (P : BuildParams) (prevPos : List (String × PrevPos)) (clusterId : Int) :
    ℚ × ℚ :=
  match mapGet prevPos ("cluster-" ++ toString clusterId) with
  | some pp => (pp.x, pp.y)
  | none => (P.width / 2, P.height / 2)

/-- Paper nodes of one expanded cluster, in bucket order (lines 200-233). -/
def clusterPaperNodes (P : BuildParams) (prevPos : List (String × PrevPos))
    (label color : String) (clusterId : Int) (clusterPapers : List PaperSummary) :
    List ForceNode :=
  clusterPapers.enum.map
    (mkPaperNode P.M prevPos label color (clusterBase P prevPos clusterId)
      clusterPapers.length)

/-- Deduplicated k-NN links of one expanded cluster, pushed onto the link
list accumulated so far (lines 235-277). -/
def clusterKnnLinks (M : MathPrims) (clusterPapers : List PaperSummary)
    (pNodes : List ForceNode) (links : List ForceLink) : List ForceLink :=
  pNodes.enum.foldl (addNodeLinks M clusterPapers pNodes) links

/-- Per-cluster step of the builder (lines 188-299): an expanded cluster
emits one paper node per sampled record plus its k-NN links, a collapsed
cluster emits a single cluster node. -/
def buildClusterStep (P : BuildParams) (colorMap labelMap : List (Int × String))
    (expanded : Finset Int) (prevPos : List (String × PrevPos))
    (acc : List ForceNode × List ForceLink) (entry : Int × List PaperSummary) :
    List ForceNode × List ForceLink :=
  let color := colorOf colorMap entry.1
  let label := labelOf labelMap entry.1
  if entry.1 ∈ expanded then
    let pNodes := clusterPaperNodes P prevPos label color entry.1 entry.2
    (acc.1 ++ pNodes, clusterKnnLinks P.M entry.2 pNodes acc.2)
  else
    (acc.1 ++ [mkClusterNode prevPos label color entry.1 entry.2.length], acc.2)

/-- The graph builder (lines 94-299): records plus UI state to the node and
link lists of one build. -/
def buildGraph (P : BuildParams) (papers : List PaperSummary) (clusters : List ClusterInfo)
    (sel expanded : Finset Int) (densityPercent : Nat) (prevNodes : List ForceNode) :
    List ForceNode × List ForceLink :=
  (sampledByCluster densityPercent sel papers).foldl
    (buildClusterStep P (clusterColorMap clusters) (clusterLabelMap clusters) expanded
      (previousPositions prevNodes)) ([], [])

/-- Camera transform: translation plus uniform scale. -/
structure ZoomTransform where
  x : ℚ
  y : ℚ
  k : ℚ
  deriving DecidableEq, Inhabited

/-- d3.zoomIdentity. -/
def zoomIdentity : ZoomTransform := ⟨0, 0, 1⟩

/-- The mutable layout state of the component: expansion set, node and link
refs, camera transform and the reset counter. -/
structure ComponentState where
  expandedClusters : Finset Int
  nodes : List ForceNode
  links : List ForceLink
  transform : ZoomTransform
  resetTrigger : Nat
  deriving DecidableEq, Inhabited

/-- State at mount: nothing expanded, empty refs, identity camera. -/
def initialState : ComponentState := ⟨∅, [], [], zoomIdentity, 0⟩

/-- The simulation effect around the builder (lines 87-92): when the paper or
cluster array is empty the effect returns before rebuilding, leaving the node
and link refs unchanged; otherwise it rebuilds from the current state. -/
def runBuildEffect (P : BuildParams) (s : ComponentState) (papers : List PaperSummary)
    (clusters : List ClusterInfo) (sel : Finset Int) (densityPercent : Nat) :
    List ForceNode × List ForceLink :=
  if papers.length = 0 ∨ clusters.length = 0 then (s.nodes, s.links)
  else buildGraph P papers clusters sel s.expandedClusters densityPercent s.nodes

/-- handleResetLayout (lines 460-478): collapse everything, drop the node and
link refs (and with them every cached or pinned position), reset the camera,
bump the rebuild trigger. -/
def handleResetLayout (s : ComponentState) : ComponentState :=
  { expandedClusters := ∅
    nodes := []
    links := []
    transform := zoomIdentity
    resetTrigger := s.resetTrigger + 1 }

/-- findNodeAtPosition (lines 481-507): map the pointer through the inverse
camera transform and return the first node within radius + 5. -/
def findNodeAtPos (M : MathPrims) (nodes : List ForceNode) (t : ZoomTransform)
    (rectLeft rectTop clientX clientY : ℚ) : Option ForceNode :=
  let x := clientX - rectLeft
  let y := clientY - rectTop
  let tx := (x - t.x) / t.k
  let ty := (y - t.y) / t.k
  nodes.findSome? (fun n =>
    match n.x, n.y with
    | some nx, some ny =>
      let radius : ℚ := if n.type = NodeType.cluster then 15 else 5
      let dx := nx - tx
      let dy := ny - ty
      if M.sqrtQ (dx * dx + dy * dy) < radius + 5 then some n else none
    | _, _ => none)

/-- handleClick (lines 622-654): the item id the "open details" callback is
invoked with, or none when it is not invoked.  The hit scan of the handler is
the same first-match loop as findNodeAtPosition. -/
def handleClick (M : MathPrims) (nodes : List ForceNode) (t : ZoomTransform)
    (isDragging metaKey ctrlKey : Bool) (rectLeft rectTop clientX clientY : ℚ) :
    Option Int :=
  if isDragging then none
  else if metaKey = false ∧ ctrlKey = false then none
  else
    match findNodeAtPos M nodes t rectLeft rectTop clientX clientY with
    | none => none
    | some n =>
      if n.type = NodeType.paper ∧ n.paperId ≠ none ∧ n.paperId ≠ some 0 then n.paperId
      else none

/-- Event kinds the zoom gesture filter distinguishes. -/
inductive ZoomEventType where
  | dblclick
  | mousedown
  | touchstart
  | wheel
  | other
  deriving DecidableEq, Inhabited

/-- The zoom gesture filter (lines 522-546): reject double-clicks, reject
everything while a drag is in progress, and reject mousedown and touchstart
gestures that start on a node. -/
def zoomFilter (M : MathPrims) (nodes : List ForceNode) (t : ZoomTransform)
    (isDragging : Bool) (evType : ZoomEventType) (rectLeft rectTop clientX clientY : ℚ) :
    Bool :=
  if evType = ZoomEventType.dblclick then false
  else if isDragging then false
  else if evType = ZoomEventType.mousedown ∨ evType = ZoomEventType.touchstart then
    match findNodeAtPos M nodes t rectLeft rectTop clientX clientY with
    | some _ => false
    | none => true
  else true

/-- handleDoubleClick on a hit node (lines 688-712): a cluster node toggles
its cluster id in the expansion set, a paper node collapses its cluster. -/
def toggleOnDoubleClick (expanded : Finset Int) (n : ForceNode) : Finset Int :=
  if n.type = NodeType.cluster then
    if n.clusterId ∈ expanded then expanded.erase n.clusterId
    else insert n.clusterId expanded
  else expanded.erase n.clusterId

/-! Concrete fixtures used to evaluate the definitions on closed inputs. -/

/-- A paper record of cluster cid with the given original x coordinate. -/
def mkPaper (i cid : Int) (cx : ℚ) : PaperSummary :=
  ⟨i, some "T", some cx, some 0, some 0, some cid, none, none, none, none⟩

/-- A cluster record for cluster 0. -/
def clusterW : ClusterInfo := ⟨0, "L", 0, "#fff"⟩

/-- A paper node with the falsy item id 0, sitting at the simulation origin. -/
def paperNode0 : ForceNode :=
  ⟨"paper-0", NodeType.paper, 0, "L", "#fff", none, some 0, none, none, none,
    some 0, some 0, none, none⟩

/-- A paper node with the truthy item id 3, sitting at the simulation origin. -/
def paperNode3 : ForceNode :=
  ⟨"paper-3", NodeType.paper, 0, "L", "#fff", none, some 3, none, none, none,
    some 0, some 0, none, none⟩

/-- A collapsed cluster node pinned on its x axis, as a previous build could
leave it. -/
def prevClusterNode : ForceNode :=
  ⟨"cluster-0", NodeType.cluster, 0, "L", "#fff", some 2, none, none, none, none,
    some 7, some 8, some 1, none⟩

/-! Claim C2: behaviour of the build on an empty record set. -/

/-- C2, counterexample: with a non-empty previous node list, an empty record
set does not yield an empty node list; the effect returns early (lines 87-92)
and the previous nodes stay in place. -/
theorem emptyRecords_counterexample :
    (runBuildEffect paramsW ⟨∅, [prevClusterNode], [], zoomIdentity, 0⟩ [] [clusterW]
        ∅ 20).1 ≠ [] := by
  simp [runBuildEffect]

/-- C2 (amended): an empty record set raises no error and performs no
rebuild: the effect returns the previous node and link lists unchanged (so
they are empty exactly when they were empty, as on the initial build), and
the core builder applied to an empty record set yields empty node and link
lists. -/
theorem emptyRecords_skipBuild (P : BuildParams) (s : ComponentState)
    (clusters : List ClusterInfo) (sel expanded : Finset Int) (densityPercent : Nat)
    (prevNodes : List ForceNode) :
    runBuildEffect P s [] clusters sel densityPercent = (s.nodes, s.links) ∧
    buildGraph P [] clusters sel expanded densityPercent prevNodes = ([], []) := by
  exact ⟨by simp [runBuildEffect], rfl⟩

/-! Claim C7: determinism of the density-sampling step. -/

/-- C7: the density-sampling step is a pure function of the record set, the
selection and the density percentage: equal inputs give the identical sampled
subset for every cluster, in the same order. -/
theorem sampling_deterministic (d1 d2 : Nat) (sel1 sel2 : Finset Int)
    (papers1 papers2 : List PaperSummary) (hp : papers1 = papers2) (hs : sel1 = sel2)
    (hd : d1 = d2) :
    sampledByCluster d1 sel1 papers1 = sampledByCluster d2 sel2 papers2 := by
  subst hp; subst hs; subst hd; rfl

/-- C7, witness: two invocations on the same two-paper record set at density
50 agree. -/
theorem sampling_deterministic_witness :
    sampledByCluster 50 ∅ [mkPaper 1 0 0, mkPaper 2 0 1] =
      sampledByCluster 50 ∅ [mkPaper 1 0 0, mkPaper 2 0 1] :=
  sampling_deterministic 50 50 ∅ ∅ _ _ rfl rfl rfl

/-! Claim C8: the modifier-click "open details" callback. -/

/-- C8, counterexample: the callback is driven by a JS truthiness test on the
item id (line 648), so a Cmd-click whose first hit is the paper node with item
id 0 does not invoke it; it is also suppressed while the drag flag is set even
for a truthy id. -/
theorem click_callback_counterexample :
    findNodeAtPos mathId [paperNode0] zoomIdentity 0 0 0 0 = some paperNode0 ∧
    paperNode0.type = NodeType.paper ∧
    paperNode0.paperId = some 0 ∧
    handleClick mathId [paperNode0] zoomIdentity false true false 0 0 0 0 = none ∧
    findNodeAtPos mathId [paperNode3] zoomIdentity 0 0 0 0 = some paperNode3 ∧
    handleClick mathId [paperNode3] zoomIdentity true true false 0 0 0 0 = none := by
  refine ⟨?_, rfl, rfl, ?_, ?_, ?_⟩ <;>
    simp +decide [findNodeAtPos, handleClick, paperNode0, paperNode3, zoomIdentity, mathId,
      List.findSome?_cons]

/-- C8 (amended): when no drag is in progress and Cmd or Ctrl is held, a
click whose first hit is a paper node with a truthy (nonzero) item id invokes
the callback with that id; the callback never fires when the first hit is a
cluster node, and never fires without the modifier. -/
theorem click_callback (M : MathPrims) (nodes : List ForceNode) (t : ZoomTransform)
    (metaKey ctrlKey : Bool) (rectLeft rectTop clientX clientY : ℚ) :
    (∀ n pid, (metaKey = true ∨ ctrlKey = true) →
      findNodeAtPos M nodes t rectLeft rectTop clientX clientY = some n →
      n.type = NodeType.paper → n.paperId = some pid → pid ≠ 0 →
      handleClick M nodes t false metaKey ctrlKey rectLeft rectTop clientX clientY =
        some pid) ∧
    (∀ n isDragging,
      findNodeAtPos M nodes t rectLeft rectTop clientX clientY = some n →
      n.type = NodeType.cluster →
      handleClick M nodes t isDragging metaKey ctrlKey rectLeft rectTop clientX clientY =
        none) ∧
    (metaKey = false → ctrlKey = false → ∀ isDragging,
      handleClick M nodes t isDragging metaKey ctrlKey rectLeft rectTop clientX clientY =
        none) := by
  refine ⟨?_, ?_, ?_⟩
  · intro n pid hmod hfind htype hid hpid
    have hmods : ¬(metaKey = false ∧ ctrlKey = false) := by
      rcases hmod with h | h <;> simp [h]
    have hcond : n.type = NodeType.paper ∧ n.paperId ≠ none ∧ n.paperId ≠ some 0 :=
      ⟨htype, by simp [hid], by simp [hid, hpid]⟩
    simp [handleClick, hmods, hfind, hcond, hid, hpid]
  · intro n isDragging hfind htype
    have hcond : ¬(n.type = NodeType.paper ∧ n.paperId ≠ none ∧ n.paperId ≠ some 0) := by
      simp [htype]
    cases isDragging with
    | true => simp [handleClick]
    | false =>
      by_cases hmods : metaKey = false ∧ ctrlKey = false
      · simp [handleClick, hmods]
      · simp [handleClick, hmods, hfind, hcond]
  · intro hm hc isDragging
    cases isDragging with
    | true => simp [handleClick]
    | false => simp [handleClick, hm, hc]

/-- C8, witness: Cmd-click on the paper node with item id 3 fires the
callback with 3. -/
theorem click_callback_witness :
    handleClick mathId [paperNode3] zoomIdentity false true false 0 0 0 0 = some 3 :=
  (click_callback mathId [paperNode3] zoomIdentity true false 0 0 0 0).1 paperNode3 3
    (Or.inl rfl)
    (by simp +decide [findNodeAtPos, paperNode3, zoomIdentity, mathId, List.findSome?_cons])
    rfl rfl (by decide)

/-! Claim C9: the zoom gesture filter. -/

/-- C9, counterexample: a wheel gesture over a node is a zoom gesture that
starts on top of a node, yet the filter accepts it: only mousedown and
touchstart are node-filtered (lines 533-543). -/
theorem zoom_filter_counterexample :
    (findNodeAtPos mathId [paperNode3] zoomIdentity 0 0 0 0).isSome = true ∧
    zoomFilter mathId [paperNode3] zoomIdentity false ZoomEventType.wheel 0 0 0 0 =
      true := by
  constructor <;>
    simp +decide [findNodeAtPos, zoomFilter, paperNode3, zoomIdentity, mathId,
      List.findSome?_cons]

/-- C9 (amended): the zoom filter rejects every double-click event, rejects
every event arriving while a node drag is in progress, and rejects every
mousedown or touchstart gesture that starts on top of a node (within hit-test
tolerance); other gesture kinds, wheel included, are not node-filtered. -/
theorem zoom_filter_rejects (M : MathPrims) (nodes : List ForceNode) (t : ZoomTransform)
    (isDragging : Bool) (evType : ZoomEventType) (rectLeft rectTop clientX clientY : ℚ) :
    (evType = ZoomEventType.dblclick →
      zoomFilter M nodes t isDragging evType rectLeft rectTop clientX clientY = false) ∧
    (isDragging = true →
      zoomFilter M nodes t isDragging evType rectLeft rectTop clientX clientY = false) ∧
    ((evType = ZoomEventType.mousedown ∨ evType = ZoomEventType.touchstart) →
      (findNodeAtPos M nodes t rectLeft rectTop clientX clientY).isSome →
      zoomFilter M nodes t isDragging evType rectLeft rectTop clientX clientY = false) := by
  refine ⟨?_, ?_, ?_⟩
  · intro h; simp [zoomFilter, h]
  · intro h; subst h
    by_cases hd : evType = ZoomEventType.dblclick <;> simp [zoomFilter, hd]
  · intro hev hfind
    have hne : evType ≠ ZoomEventType.dblclick := by
      rcases hev with h | h <;> subst h <;> decide
    cases isDragging with
    | true => simp [zoomFilter, hne]
    | false =>
      rcases Option.isSome_iff_exists.mp hfind with ⟨n, hn⟩
      simp [zoomFilter, hne, hev, hn]

/-- C9, witness: a mousedown on top of a node is rejected by the filter. -/
theorem zoom_filter_witness :
    zoomFilter mathId [paperNode3] zoomIdentity false ZoomEventType.mousedown 0 0 0 0 =
      false :=
  (zoom_filter_rejects mathId [paperNode3] zoomIdentity false ZoomEventType.mousedown
    0 0 0 0).2.2 (Or.inl rfl)
    (by simp +decide [findNodeAtPos, paperNode3, zoomIdentity, mathId, List.findSome?_cons])

/-! Node-construction invariants of the per-cluster fold. -/

/-- Every node the per-cluster fold emits satisfies any property that holds
of every node either node constructor can produce. -/
theorem build_fold_nodes (P : BuildParams) (colorMap labelMap : List (Int × String))
    (expanded : Finset Int) (prevPos : List (String × PrevPos))
    (Φ : ForceNode → Prop)
    (hpap : ∀ label color base len ip, Φ (mkPaperNode P.M prevPos label color base len ip))
    (hclu : ∀ label color cid cnt, Φ (mkClusterNode prevPos label color cid cnt)) :
    ∀ (entries : List (Int × List PaperSummary)) (acc : List ForceNode × List ForceLink),
      (∀ n ∈ acc.1, Φ n) →
      ∀ n ∈ (entries.foldl (buildClusterStep P colorMap labelMap expanded prevPos) acc).1,
        Φ n := by
  intro entries
  induction entries with
  | nil => exact fun acc hacc n hn => hacc n hn
  | cons e rest ih =>
    intro acc hacc
    rw [List.foldl_cons]
    apply ih
    intro n hn
    by_cases hmem : e.1 ∈ expanded
    · simp only [buildClusterStep, if_pos hmem, clusterPaperNodes, List.mem_append,
        List.mem_map] at hn
      rcases hn with hn | ⟨ip, _, rfl⟩
      · exact hacc n hn
      · exact hpap _ _ _ _ ip
    · simp only [buildClusterStep, if_neg hmem, List.mem_append, List.mem_singleton] at hn
      rcases hn with hn | rfl
      · exact hacc n hn
      · exact hclu _ _ _ _

/-! Claim C4: rebuilds preserve cached positions and pins. -/

/-- C4: every rebuilt node whose id has an entry in the position cache gets
its x, y, fx and fy verbatim from that entry instead of the seed position,
for paper nodes and cluster nodes alike. -/
theorem rebuild_preserves_positions (P : BuildParams) (papers : List PaperSummary)
    (clusters : List ClusterInfo) (sel expanded : Finset Int) (densityPercent : Nat)
    (prevNodes : List ForceNode) (n : ForceNode)
    (hn : n ∈ (buildGraph P papers clusters sel expanded densityPercent prevNodes).1)
    (e : PrevPos) (he : mapGet (previousPositions prevNodes) n.id = some e) :
    n.x = some e.x ∧ n.y = some e.y ∧ n.fx = e.fx ∧ n.fy = e.fy := by
  revert e
  refine build_fold_nodes P _ _ expanded (previousPositions prevNodes)
    (fun n => ∀ e, mapGet (previousPositions prevNodes) n.id = some e →
      n.x = some e.x ∧ n.y = some e.y ∧ n.fx = e.fx ∧ n.fy = e.fy)
    ?_ ?_ _ _ (fun n hn => absurd hn (List.not_mem_nil n)) n hn
  · intro label color base len ip e he
    simp only [mkPaperNode] at he ⊢
    simp [he]
  · intro label color cid cnt e he
    simp only [mkClusterNode] at he ⊢
    simp [he]

/-- The node the C4 witness inspects: the cluster node of cluster 0 rebuilt
from a cache entry at (7, 8) with a pinned x. -/
def rebuiltNode : ForceNode :=
  (buildGraph paramsW [mkPaper 1 0 0, mkPaper 2 0 1] [clusterW] ∅ ∅ 50
    [prevClusterNode]).1.headI

/-- C4, witness: the rebuilt cluster node keeps the cached position (7, 8)
and the cached pin. -/
theorem rebuild_preserves_positions_witness :
    rebuiltNode.x = some 7 ∧ rebuiltNode.y = some 8 ∧ rebuiltNode.fx = some 1 ∧
      rebuiltNode.fy = none :=
  rebuild_preserves_positions paramsW [mkPaper 1 0 0, mkPaper 2 0 1] [clusterW]
    ∅ ∅ 50 [prevClusterNode] rebuiltNode (by decide) ⟨7, 8, some 1, none⟩ (by decide)

/-! Claim C6: resetLayout. -/

/-- C6: resetLayout empties the expansion set, drops all nodes and links (and
with them every pinned position and the whole position cache) and resets the
camera to the identity; every node of the next build is unpinned, and that
build no longer depends on anything of the pre-reset state, dragged positions
included. -/
theorem reset_layout (P : BuildParams) (papers : List PaperSummary)
    (clusters : List ClusterInfo) (sel expanded : Finset Int) (densityPercent : Nat)
    (s s2 : ComponentState) :
    (handleResetLayout s).expandedClusters = ∅ ∧
    (handleResetLayout s).nodes = [] ∧
    (handleResetLayout s).links = [] ∧
    (handleResetLayout s).transform = zoomIdentity ∧
    previousPositions (handleResetLayout s).nodes = [] ∧
    (∀ n ∈ (buildGraph P papers clusters sel expanded densityPercent
        (handleResetLayout s).nodes).1, n.fx = none ∧ n.fy = none) ∧
    buildGraph P papers clusters sel expanded densityPercent (handleResetLayout s).nodes =
      buildGraph P papers clusters sel expanded densityPercent
        (handleResetLayout s2).nodes := by
  refine ⟨rfl, rfl, rfl, rfl, rfl, ?_, rfl⟩
  intro n hn
  refine build_fold_nodes P _ _ expanded (previousPositions [])
    (fun n => n.fx = none ∧ n.fy = none) ?_ ?_ _ _
    (fun n hn => absurd hn (List.not_mem_nil n)) n hn
  · intro label color base len ip
    simp [mkPaperNode, previousPositions, mapGet]
  · intro label color cid cnt
    simp [mkClusterNode, previousPositions, mapGet]

/-- A cluster node a drag left pinned at (50, 50), as the pre-reset state of
the C6 witness. -/
def draggedNode : ForceNode :=
  ⟨"cluster-0", NodeType.cluster, 0, "L", "#fff", some 1, none, none, none, none,
    some 50, some 50, some 50, some 50⟩

/-- The pre-reset component state of the C6 witness. -/
def sDragged : ComponentState := ⟨∅, [draggedNode], [], ⟨3, 4, 2⟩, 0⟩

/-- The node the C6 witness inspects: cluster 0 as rebuilt after the reset. -/
def nodeAfterReset : ForceNode :=
  (buildGraph paramsW [mkPaper 1 0 0] [clusterW] ∅ ∅ 100
    (handleResetLayout sDragged).nodes).1.headI

/-- C6, witness: after the reset, the previously dragged cluster node is
rebuilt unpinned. -/
theorem reset_layout_witness :
    nodeAfterReset.fx = none ∧ nodeAfterReset.fy = none :=
  (reset_layout paramsW [mkPaper 1 0 0] [clusterW] ∅ ∅ 100 sDragged
    initialState).2.2.2.2.2.1 nodeAfterReset (by decide)

/-! Invariants of the grouping step. -/

/-- Invariants of the grouping fold: bucket keys are distinct, every record
sits in the bucket of its own cluster id, and no bucket is empty. -/
def GroupedInv (m : List (Int × List PaperSummary)) : Prop :=
  (m.map Prod.fst).Nodup ∧
  (∀ e ∈ m, ∀ p ∈ e.2, p.cluster_id = some e.1) ∧
  (∀ e ∈ m, e.2 ≠ [])

/-- pushGrouped adds at most the key it is given. -/
theorem mem_keys_pushGrouped {κ α : Type} [DecidableEq κ] (m : List (κ × List α)) (k : κ)
    (p : α) (a : κ) :
    a ∈ (pushGrouped m k p).map Prod.fst ↔ a ∈ m.map Prod.fst ∨ a = k := by
  induction m with
  | nil => simp [pushGrouped]
  | cons e rest ih =>
    obtain ⟨k2, ps⟩ := e
    by_cases hk : k2 = k
    · subst hk
      simp [pushGrouped]
      tauto
    · simp [pushGrouped, hk, ih]
      tauto

/-- pushGrouped preserves the grouping invariants when the pushed record
belongs to the pushed key. -/
theorem pushGrouped_inv (m : List (Int × List PaperSummary)) (k : Int) (p : PaperSummary)
    (hp : p.cluster_id = some k) (h : GroupedInv m) : GroupedInv (pushGrouped m k p) := by
  induction m with
  | nil =>
    refine ⟨by simp [pushGrouped], ?_, by simp [pushGrouped]⟩
    intro e he q hq
    simp [pushGrouped] at he
    subst he
    simp at hq
    subst hq
    exact hp
  | cons e rest ih =>
    obtain ⟨k2, ps⟩ := e
    obtain ⟨hnd, hbucket, hnonempty⟩ := h
    simp only [List.map_cons, List.nodup_cons] at hnd
    by_cases hk : k2 = k
    · subst hk
      simp only [pushGrouped, if_pos rfl]
      refine ⟨?_, ?_, ?_⟩
      · simpa using hnd
      · intro e2 he2 q hq
        rcases List.mem_cons.mp he2 with rfl | he3
        · rcases List.mem_append.mp hq with hq2 | hq2
          · exact hbucket (k2, ps) (List.mem_cons_self _ _) q hq2
          · rw [List.mem_singleton.mp hq2]
            exact hp
        · exact hbucket e2 (List.mem_cons_of_mem _ he3) q hq
      · intro e2 he2
        rcases List.mem_cons.mp he2 with rfl | he3
        · simp
        · exact hnonempty e2 (List.mem_cons_of_mem _ he3)
    · have hrest : GroupedInv rest :=
        ⟨hnd.2, fun e2 he2 => hbucket e2 (List.mem_cons_of_mem _ he2),
          fun e2 he2 => hnonempty e2 (List.mem_cons_of_mem _ he2)⟩
      have hih := ih hrest
      simp only [pushGrouped, if_neg hk]
      refine ⟨?_, ?_, ?_⟩
      · simp only [List.map_cons, List.nodup_cons]
        refine ⟨?_, hih.1⟩
        rw [mem_keys_pushGrouped]
        rintro (h2 | rfl)
        · exact hnd.1 h2
        · exact hk rfl
      · intro e2 he2 q hq
        rcases List.mem_cons.mp he2 with rfl | he3
        · exact hbucket (k2, ps) (List.mem_cons_self _ _) q hq
        · exact hih.2.1 e2 he3 q hq
      · intro e2 he2
        rcases List.mem_cons.mp he2 with rfl | he3
        · exact hnonempty (k2, ps) (List.mem_cons_self _ _)
        · exact hih.2.2 e2 he3

/-- The grouping fold preserves the invariants from any starting map. -/
theorem grouped_fold_inv (l : List PaperSummary) (m : List (Int × List PaperSummary))
    (h : GroupedInv m) :
    GroupedInv (l.foldl
      (fun m p =>
        match p.cluster_id with
        | some cid => pushGrouped m cid p
        | none => m) m) := by
  induction l generalizing m with
  | nil => exact h
  | cons p rest ih =>
    rw [List.foldl_cons]
    cases hcid : p.cluster_id with
    | none => simpa [hcid] using ih _ h
    | some cid => simpa [hcid] using ih _ (pushGrouped_inv _ _ _ hcid h)

/-- The bucket map of every build satisfies the grouping invariants. -/
theorem papersByCluster_inv (sel : Finset Int) (papers : List PaperSummary) :
    GroupedInv (papersByCluster sel papers) :=
  grouped_fold_inv _ [] ⟨List.nodup_nil, by simp, by simp⟩

/-- mapGet answers only entries of the map. -/
theorem mapGet_mem {κ α : Type} [DecidableEq κ] (m : List (κ × α)) (k : κ) (v : α)
    (h : mapGet m k = some v) : (k, v) ∈ m := by
  induction m with
  | nil => simp [mapGet] at h
  | cons e rest ih =>
    obtain ⟨k2, v2⟩ := e
    by_cases hk : k2 = k
    · subst hk
      simp [mapGet] at h
      subst h
      exact List.mem_cons_self _ _
    · simp only [mapGet, if_neg hk] at h
      exact List.mem_cons_of_mem _ (ih h)

/-! Claim C10: the sampled subset keeps a minimal-id record. -/

/-- The head of the id-sorted bucket belongs to the bucket and has minimal
id among its records. -/
theorem sortById_head_min (ps : List PaperSummary) (h : PaperSummary)
    (t : List PaperSummary) (hs : sortById ps = h :: t) :
    h ∈ ps ∧ ∀ q ∈ ps, h.id ≤ q.id := by
  have hperm := List.perm_insertionSort idLE ps
  have hsorted := List.sorted_insertionSort idLE ps
  rw [sortById] at hs
  rw [hs] at hperm hsorted
  rcases List.sorted_cons.mp hsorted with ⟨hmin, _⟩
  refine ⟨hperm.mem_iff.mp (List.mem_cons_self h t), ?_⟩
  intro q hq
  rcases List.mem_cons.mp (hperm.mem_iff.mpr hq) with rfl | hq2
  · exact le_refl _
  · exact hmin q hq2

/-- The id-sorted form of a non-empty bucket is non-empty. -/
theorem sortById_ne_nil (ps : List PaperSummary) (hne : ps ≠ []) : sortById ps ≠ [] := by
  intro h
  apply hne
  have hperm := List.perm_insertionSort idLE ps
  rw [sortById] at h
  rw [h] at hperm
  exact hperm.symm.eq_nil

/-- Core of C10: a non-empty bucket sampled at density at least 1 stays
non-empty and keeps a record of minimal id: index 0 of the id-sorted list
passes the modulus filter (0 mod anything is 0) and the slice (the target
count is at least 1). -/
theorem sampleCluster_keeps_min (densityPercent : Nat) (ps : List PaperSummary)
    (hd : 1 ≤ densityPercent) (hne : ps ≠ []) :
    sampleCluster densityPercent ps ≠ [] ∧
    ∃ r, r ∈ sampleCluster densityPercent ps ∧ r ∈ ps ∧ ∀ q ∈ ps, r.id ≤ q.id := by
  cases hs : sortById ps with
  | nil => exact absurd hs (sortById_ne_nil ps hne)
  | cons h t =>
    have hmin := sortById_head_min ps h t hs
    by_cases h100 : densityPercent < 100
    · by_cases htlt : ceilDivNat (ps.length * densityPercent) 100 < ps.length
      · have hlen : 0 < ps.length := List.length_pos.mpr hne
        have hmul : 1 ≤ ps.length * densityPercent := Nat.mul_pos hlen hd
        have htarget : 1 ≤ ceilDivNat (ps.length * densityPercent) 100 := by
          unfold ceilDivNat
          omega
        obtain ⟨k, hk⟩ := Nat.exists_eq_add_of_le htarget
        have hsample : sampleCluster densityPercent ps =
            (((sortById ps).enum.filter
                (fun ip => ip.1 % ceilDivNat (sortById ps).length
                  (ceilDivNat (ps.length * densityPercent) 100) == 0)).map
              Prod.snd).take (ceilDivNat (ps.length * densityPercent) 100) := by
          simp only [sampleCluster, if_pos h100, if_pos htlt]
        rw [hsample, hs, List.enum_cons]
        rw [List.filter_cons]
        simp only [Nat.zero_mod, beq_self_eq_true, if_pos rfl, List.map_cons, hk,
          Nat.add_comm 1 k, List.take_succ_cons]
        exact ⟨List.cons_ne_nil _ _,
          h, List.mem_cons_self _ _, hmin.1, hmin.2⟩
      · have hsample : sampleCluster densityPercent ps = ps := by
          simp only [sampleCluster, if_pos h100, if_neg htlt]
        rw [hsample]
        exact ⟨hne, h, hmin.1, hmin.1, hmin.2⟩
    · have hsample : sampleCluster densityPercent ps = ps := by
        simp only [sampleCluster, if_neg h100]
      rw [hsample]
      exact ⟨hne, h, hmin.1, hmin.1, hmin.2⟩

/-- C10: every cluster with at least one selected record, sampled at a
density between 1 and 100, yields a non-empty subset containing a record of
minimal numeric id of that cluster. -/
theorem sampled_contains_min (sel : Finset Int) (papers : List PaperSummary)
    (densityPercent : Nat) (hd1 : 1 ≤ densityPercent) (_hd100 : densityPercent ≤ 100)
    (C : Int) (bucket : List PaperSummary)
    (hb : mapGet (papersByCluster sel papers) C = some bucket) :
    sampleCluster densityPercent bucket ≠ [] ∧
    ∃ r, r ∈ sampleCluster densityPercent bucket ∧ r ∈ bucket ∧
      ∀ q ∈ bucket, r.id ≤ q.id := by
  have hmem := mapGet_mem _ _ _ hb
  have hinv := papersByCluster_inv sel papers
  exact sampleCluster_keeps_min densityPercent bucket hd1 (hinv.2.2 _ hmem)

/-- C10, witness: a two-record cluster sampled at density 20 keeps the record
with the smaller id. -/
theorem sampled_contains_min_witness :
    sampleCluster 20 [mkPaper 5 0 0, mkPaper 1 0 0] ≠ [] ∧
    ∃ r, r ∈ sampleCluster 20 [mkPaper 5 0 0, mkPaper 1 0 0] ∧
      r ∈ [mkPaper 5 0 0, mkPaper 1 0 0] ∧
      ∀ q ∈ [mkPaper 5 0 0, mkPaper 1 0 0], r.id ≤ q.id :=
  sampled_contains_min ∅ [mkPaper 5 0 0, mkPaper 1 0 0] 20 (by decide) (by decide) 0
    [mkPaper 5 0 0, mkPaper 1 0 0] (by decide)

/-! Claims C1 and C5: the cluster node a build emits for a collapsed
visible cluster. -/

/-- The cluster nodes a node list holds for cluster C. -/
def clusterNodesFor (C : Int) (ns : List ForceNode) : List ForceNode :=
  ns.filter (fun n => n.type == NodeType.cluster && n.clusterId == C)

/-- clusterNodesFor distributes over append. -/
theorem clusterNodesFor_append (C : Int) (l1 l2 : List ForceNode) :
    clusterNodesFor C (l1 ++ l2) = clusterNodesFor C l1 ++ clusterNodesFor C l2 :=
  List.filter_append l1 l2

/-- Paper nodes never contribute to clusterNodesFor. -/
theorem clusterNodesFor_paperNodes (C : Int) (P : BuildParams)
    (prevPos : List (String × PrevPos)) (label color : String) (cid : Int)
    (ps : List PaperSummary) :
    clusterNodesFor C (clusterPaperNodes P prevPos label color cid ps) = [] := by
  rw [clusterNodesFor, List.filter_eq_nil_iff]
  intro n hn
  rcases List.mem_map.mp hn with ⟨ip, _, rfl⟩
  simp [mkPaperNode]

/-- A cluster node of another cluster never contributes to clusterNodesFor. -/
theorem clusterNodesFor_clusterNode_ne (C cid : Int) (h : cid ≠ C)
    (prevPos : List (String × PrevPos)) (label color : String) (cnt : Nat) :
    clusterNodesFor C [mkClusterNode prevPos label color cid cnt] = [] := by
  simp [clusterNodesFor, mkClusterNode, h]

/-- The cluster node of the cluster itself is kept by clusterNodesFor. -/
theorem clusterNodesFor_clusterNode_eq (C : Int) (prevPos : List (String × PrevPos))
    (label color : String) (cnt : Nat) :
    clusterNodesFor C [mkClusterNode prevPos label color C cnt] =
      [mkClusterNode prevPos label color C cnt] := by
  simp [clusterNodesFor, mkClusterNode]

/-- A build step for another cluster does not change clusterNodesFor. -/
theorem clusterNodesFor_step_ne (P : BuildParams) (colorMap labelMap : List (Int × String))
    (expanded : Finset Int) (prevPos : List (String × PrevPos))
    (acc : List ForceNode × List ForceLink) (entry : Int × List PaperSummary) (C : Int)
    (h : entry.1 ≠ C) :
    clusterNodesFor C
        ((buildClusterStep P colorMap labelMap expanded prevPos acc entry).1) =
      clusterNodesFor C acc.1 := by
  by_cases hmem : entry.1 ∈ expanded
  · simp only [buildClusterStep, if_pos hmem]
    rw [clusterNodesFor_append, clusterNodesFor_paperNodes, List.append_nil]
  · simp only [buildClusterStep, if_neg hmem]
    rw [clusterNodesFor_append, clusterNodesFor_clusterNode_ne C entry.1 h, List.append_nil]

/-- The build step of the collapsed cluster itself appends exactly its one
cluster node. -/
theorem clusterNodesFor_step_eq (P : BuildParams) (colorMap labelMap : List (Int × String))
    (expanded : Finset Int) (prevPos : List (String × PrevPos))
    (acc : List ForceNode × List ForceLink) (entry : Int × List PaperSummary) (C : Int)
    (hC : entry.1 = C) (hexp : C ∉ expanded) :
    clusterNodesFor C
        ((buildClusterStep P colorMap labelMap expanded prevPos acc entry).1) =
      clusterNodesFor C acc.1 ++
        [mkClusterNode prevPos (labelOf labelMap C) (colorOf colorMap C) C
          entry.2.length] := by
  subst hC
  simp only [buildClusterStep, if_neg hexp]
  rw [clusterNodesFor_append, clusterNodesFor_clusterNode_eq]

/-- Folding over entries none of which is cluster C leaves clusterNodesFor
unchanged. -/
theorem clusterNodesFor_fold_notmem (P : BuildParams)
    (colorMap labelMap : List (Int × String)) (expanded : Finset Int)
    (prevPos : List (String × PrevPos)) (C : Int) :
    ∀ (entries : List (Int × List PaperSummary)), C ∉ entries.map Prod.fst →
      ∀ acc, clusterNodesFor C
          ((entries.foldl (buildClusterStep P colorMap labelMap expanded prevPos) acc).1) =
        clusterNodesFor C acc.1 := by
  intro entries
  induction entries with
  | nil => intro _ acc; rfl
  | cons e rest ih =>
    intro hC acc
    simp only [List.map_cons, List.mem_cons] at hC
    push_neg at hC
    rw [List.foldl_cons, ih hC.2, clusterNodesFor_step_ne _ _ _ _ _ _ _ _ (Ne.symm hC.1)]

/-- Folding over entries with distinct keys, one of which is the collapsed
cluster (C, psC), emits exactly one cluster node for C, carrying the length
of psC. -/
theorem clusterNodesFor_fold (P : BuildParams) (colorMap labelMap : List (Int × String))
    (expanded : Finset Int) (prevPos : List (String × PrevPos)) (C : Int)
    (psC : List PaperSummary) (hexp : C ∉ expanded) :
    ∀ (entries : List (Int × List PaperSummary)), (entries.map Prod.fst).Nodup →
      (C, psC) ∈ entries →
      ∀ acc, clusterNodesFor C
          ((entries.foldl (buildClusterStep P colorMap labelMap expanded prevPos) acc).1) =
        clusterNodesFor C acc.1 ++
          [mkClusterNode prevPos (labelOf labelMap C) (colorOf colorMap C) C
            psC.length] := by
  intro entries
  induction entries with
  | nil => intro _ h; exact absurd h (List.not_mem_nil _)
  | cons e rest ih =>
    intro hnd hmem acc
    simp only [List.map_cons, List.nodup_cons] at hnd
    rw [List.foldl_cons]
    rcases List.mem_cons.mp hmem with heq | hmem2
    · have hnotin : C ∉ rest.map Prod.fst := by
        rw [← heq] at hnd
        exact hnd.1
      rw [clusterNodesFor_fold_notmem P colorMap labelMap expanded prevPos C rest hnotin]
      have he1 : e.1 = C := by rw [← heq]
      have he2 : e.2 = psC := by rw [← heq]
      rw [← he2]
      exact clusterNodesFor_step_eq P colorMap labelMap expanded prevPos acc e C he1 hexp
    · have hne : e.1 ≠ C := by
        intro h
        apply hnd.1
        rw [h]
        exact List.mem_map.mpr ⟨(C, psC), hmem2, rfl⟩
      rw [ih hnd.2 hmem2, clusterNodesFor_step_ne _ _ _ _ _ _ _ _ hne]

/-- Every record of a sampled bucket comes from the bucket. -/
theorem sampleCluster_subset (densityPercent : Nat) (ps : List PaperSummary) :
    ∀ q ∈ sampleCluster densityPercent ps, q ∈ ps := by
  intro q hq
  simp only [sampleCluster] at hq
  by_cases h100 : densityPercent < 100
  · rw [if_pos h100] at hq
    by_cases htlt : ceilDivNat (ps.length * densityPercent) 100 < ps.length
    · rw [if_pos htlt] at hq
      rcases List.mem_map.mp (List.mem_of_mem_take hq) with ⟨ip, hip, rfl⟩
      have hmem : ip.2 ∈ sortById ps :=
        List.snd_mem_of_mem_enum (List.mem_filter.mp hip).1
      exact (List.perm_insertionSort idLE ps).subset hmem
    · rw [if_neg htlt] at hq
      exact hq
  · rw [if_neg h100] at hq
    exact hq

/-- Keys survive the sampling map unchanged. -/
theorem sampledByCluster_keys (densityPercent : Nat) (sel : Finset Int)
    (papers : List PaperSummary) :
    (sampledByCluster densityPercent sel papers).map Prod.fst =
      (papersByCluster sel papers).map Prod.fst := by
  rw [sampledByCluster, List.map_map]
  rfl

/-- What a build emits for a visible collapsed cluster: exactly one cluster
node, carrying the post-sampling member count of its bucket. -/
theorem buildGraph_collapsed_cluster (P : BuildParams) (papers : List PaperSummary)
    (clusters : List ClusterInfo) (sel expanded : Finset Int) (densityPercent : Nat)
    (prevNodes : List ForceNode) (C : Int) (bucket : List PaperSummary)
    (hvis : mapGet (papersByCluster sel papers) C = some bucket)
    (hexp : C ∉ expanded) :
    clusterNodesFor C
        (buildGraph P papers clusters sel expanded densityPercent prevNodes).1 =
      [mkClusterNode (previousPositions prevNodes)
        (labelOf (clusterLabelMap clusters) C) (colorOf (clusterColorMap clusters) C) C
        (sampleCluster densityPercent bucket).length] := by
  have hinv := papersByCluster_inv sel papers
  have hkeys : ((sampledByCluster densityPercent sel papers).map Prod.fst).Nodup := by
    rw [sampledByCluster_keys]
    exact hinv.1
  have hmem : (C, sampleCluster densityPercent bucket) ∈
      sampledByCluster densityPercent sel papers :=
    List.mem_map.mpr ⟨(C, bucket), mapGet_mem _ _ _ hvis, rfl⟩
  rw [buildGraph, clusterNodesFor_fold P (clusterColorMap clusters)
    (clusterLabelMap clusters) expanded (previousPositions prevNodes) C
    (sampleCluster densityPercent bucket) hexp _ hkeys hmem ([], [])]
  rfl

/-- C1, counterexample: a cluster of two selected records at density 50 is
emitted as a single ClusterNode whose paperCount is 1, the post-sampling
count, not the pre-sampling member count 2. -/
theorem collapsed_paperCount_counterexample :
    ((buildGraph paramsW [mkPaper 1 0 0, mkPaper 2 0 1] [clusterW] ∅ ∅ 50 []).1.map
        ForceNode.paperCount) = [some 1] ∧
    (papersByCluster ∅ [mkPaper 1 0 0, mkPaper 2 0 1]).map (fun e => (e.1, e.2.length)) =
      [(0, 2)] := by
  constructor <;> decide

/-- C1 (amended): for every build and density in 1..100, each visible cluster
outside the expansion set is emitted as exactly one ClusterNode whose
paperCount is the post-sampling member count of its bucket — the number of
selected records left after density sampling, which equals the pre-sampling
count only when sampling does not shrink the bucket. -/
theorem collapsed_paperCount (P : BuildParams) (papers : List PaperSummary)
    (clusters : List ClusterInfo) (sel expanded : Finset Int) (densityPercent : Nat)
    (_hd1 : 1 ≤ densityPercent) (_hd100 : densityPercent ≤ 100)
    (prevNodes : List ForceNode) (C : Int) (bucket : List PaperSummary)
    (hvis : mapGet (papersByCluster sel papers) C = some bucket)
    (hexp : C ∉ expanded) :
    ((clusterNodesFor C
        (buildGraph P papers clusters sel expanded densityPercent prevNodes).1).map
      ForceNode.paperCount) = [some (sampleCluster densityPercent bucket).length] := by
  rw [buildGraph_collapsed_cluster P papers clusters sel expanded densityPercent prevNodes
    C bucket hvis hexp]
  rfl

/-- C1, witness: the two-record cluster at density 50 is emitted as exactly
one ClusterNode with paperCount 1. -/
theorem collapsed_paperCount_witness :
    ((clusterNodesFor 0
        (buildGraph paramsW [mkPaper 1 0 0, mkPaper 2 0 1] [clusterW] ∅ ∅ 50 []).1).map
      ForceNode.paperCount) = [some 1] :=
  collapsed_paperCount paramsW [mkPaper 1 0 0, mkPaper 2 0 1] [clusterW] ∅ ∅ 50
    (by decide) (by decide) [] 0 [mkPaper 1 0 0, mkPaper 2 0 1] (by decide) (by decide)

/-- C5: expanding a visible collapsed cluster through the double-click
handler (on its cluster node) and collapsing it right back (double-click on
one of its paper nodes) restores exactly one ClusterNode for it with the
same memberCount as before the expansion, whatever happened to the position
cache in between. -/
theorem expand_collapse_roundtrip (P : BuildParams) (papers : List PaperSummary)
    (clusters : List ClusterInfo) (sel expanded : Finset Int) (densityPercent : Nat)
    (prev1 prev2 : List ForceNode) (C : Int) (bucket : List PaperSummary)
    (hvis : mapGet (papersByCluster sel papers) C = some bucket)
    (hexp : C ∉ expanded) (cn pn : ForceNode)
    (hcnT : cn.type = NodeType.cluster) (hcnC : cn.clusterId = C)
    (hpnT : pn.type = NodeType.paper) (hpnC : pn.clusterId = C) :
    toggleOnDoubleClick expanded cn = insert C expanded ∧
    toggleOnDoubleClick (toggleOnDoubleClick expanded cn) pn = expanded ∧
    ((clusterNodesFor C
        (buildGraph P papers clusters sel expanded densityPercent prev1).1).map
      ForceNode.paperCount) = [some (sampleCluster densityPercent bucket).length] ∧
    ((clusterNodesFor C
        (buildGraph P papers clusters sel
          (toggleOnDoubleClick (toggleOnDoubleClick expanded cn) pn) densityPercent
          prev2).1).map
      ForceNode.paperCount) = [some (sampleCluster densityPercent bucket).length] := by
  have h1 : toggleOnDoubleClick expanded cn = insert C expanded := by
    simp [toggleOnDoubleClick, hcnT, hcnC, hexp]
  have h2 : toggleOnDoubleClick (toggleOnDoubleClick expanded cn) pn = expanded := by
    rw [h1]
    simp [toggleOnDoubleClick, hpnT, hpnC, Finset.erase_insert hexp]
  refine ⟨h1, h2, ?_, ?_⟩
  · rw [buildGraph_collapsed_cluster P papers clusters sel expanded densityPercent prev1
      C bucket hvis hexp]
    rfl
  · rw [h2, buildGraph_collapsed_cluster P papers clusters sel expanded densityPercent
      prev2 C bucket hvis hexp]
    rfl

/-- C5, witness: the round trip on the two-record cluster 0 restores one
ClusterNode with the pre-expansion memberCount 1. -/
theorem expand_collapse_roundtrip_witness :
    toggleOnDoubleClick ∅ prevClusterNode = insert 0 ∅ ∧
    toggleOnDoubleClick (toggleOnDoubleClick ∅ prevClusterNode) paperNode3 = ∅ ∧
    ((clusterNodesFor 0
        (buildGraph paramsW [mkPaper 1 0 0, mkPaper 2 0 1] [clusterW] ∅ ∅ 50 []).1).map
      ForceNode.paperCount) = [some 1] ∧
    ((clusterNodesFor 0
        (buildGraph paramsW [mkPaper 1 0 0, mkPaper 2 0 1] [clusterW] ∅
          (toggleOnDoubleClick (toggleOnDoubleClick ∅ prevClusterNode) paperNode3) 50
          []).1).map
      ForceNode.paperCount) = [some 1] :=
  expand_collapse_roundtrip paramsW [mkPaper 1 0 0, mkPaper 2 0 1] [clusterW] ∅ ∅ 50
    [] [] 0 [mkPaper 1 0 0, mkPaper 2 0 1] (by decide) (by decide) prevClusterNode
    paperNode3 rfl rfl rfl rfl

/-! Claim C3: invariants of the k-NN edge construction. -/

/-- Two links carry the same unordered endpoint pair. -/
def sameUnordered (a b : ForceLink) : Prop :=
  (a.source = b.source ∧ a.target = b.target) ∨
  (a.source = b.target ∧ a.target = b.source)

/-- No two links of the list share an unordered endpoint pair. -/
def NoDupLinks (links : List ForceLink) : Prop :=
  links.Pairwise (fun a b => ¬ sameUnordered a b)

/-- Both endpoints of the link are ids of paper nodes of the node list that
carry the same cluster id. -/
def LinkIn (ns : List ForceNode) (l : ForceLink) : Prop :=
  ∃ n1, n1 ∈ ns ∧ n1.id = l.source ∧ n1.type = NodeType.paper ∧
    ∃ n2, n2 ∈ ns ∧ n2.id = l.target ∧ n2.type = NodeType.paper ∧
      n1.clusterId = n2.clusterId

/-- When the duplicate test fails, no present link matches the pair in either
orientation. -/
theorem linkExists_false_spec (links : List ForceLink) (s t : String)
    (h : linkExists links s t = false) : ∀ l ∈ links, ¬ sameUnordered l ⟨s, t⟩ := by
  intro l hl hsame
  rw [linkExists, List.any_eq_false] at h
  have h2 := h l hl
  rcases hsame with ⟨h3, h4⟩ | ⟨h3, h4⟩ <;> simp [h3, h4] at h2

/-- Pushing through the duplicate guard keeps the unordered pairs distinct. -/
theorem noDupLinks_addLinkIfNew (links : List ForceLink) (s t : String)
    (h : NoDupLinks links) : NoDupLinks (addLinkIfNew links s t) := by
  rw [addLinkIfNew]
  by_cases he : linkExists links s t = true
  · rw [if_pos he]
    exact h
  · rw [if_neg he]
    rw [NoDupLinks, List.pairwise_append]
    refine ⟨h, List.pairwise_singleton _ _, ?_⟩
    intro a ha b hb
    rw [List.mem_singleton] at hb
    subst hb
    exact linkExists_false_spec links s t (Bool.eq_false_iff.mpr he) a ha

/-- A link surviving addLinkIfNew is an old link or exactly the pushed one. -/
theorem mem_addLinkIfNew (links : List ForceLink) (s t : String) (l : ForceLink)
    (h : l ∈ addLinkIfNew links s t) : l ∈ links ∨ l = ⟨s, t⟩ := by
  rw [addLinkIfNew] at h
  by_cases he : linkExists links s t = true
  · rw [if_pos he] at h
    exact Or.inl h
  · rw [if_neg he] at h
    rcases List.mem_append.mp h with h2 | h2
    · exact Or.inl h2
    · exact Or.inr (List.mem_singleton.mp h2)

/-- Indexing into a list answers only members. -/
theorem getElem?_mem_list {α : Type} (l : List α) (i : Nat) (a : α)
    (h : l[i]? = some a) : a ∈ l := by
  rcases List.getElem?_eq_some.mp h with ⟨hlt, rfl⟩
  exact List.getElem_mem hlt

/-- The fold pushing one node's neighbor links keeps the pairs distinct, and
only adds links from that node to nodes of the list. -/
theorem pushNeighborLink_foldl_spec (pNodes : List ForceNode) (srcId : String)
    (nbrs : List (Nat × ℚ)) :
    ∀ links : List ForceLink,
      (NoDupLinks links →
        NoDupLinks (nbrs.foldl (pushNeighborLink pNodes srcId) links)) ∧
      (∀ l ∈ nbrs.foldl (pushNeighborLink pNodes srcId) links,
        l ∈ links ∨ ∃ n2, n2 ∈ pNodes ∧ l = ⟨srcId, n2.id⟩) := by
  induction nbrs with
  | nil => intro links; exact ⟨fun h => h, fun l hl => Or.inl hl⟩
  | cons nb rest ih =>
    intro links
    rw [List.foldl_cons]
    refine ⟨?_, ?_⟩
    · intro h
      refine (ih _).1 ?_
      rw [pushNeighborLink]
      cases pNodes[nb.1]? with
      | none => exact h
      | some tgt => exact noDupLinks_addLinkIfNew _ _ _ h
    · intro l hl
      rcases (ih _).2 l hl with h2 | h2
      · rw [pushNeighborLink] at h2
        cases hg : pNodes[nb.1]? with
        | none =>
          rw [hg] at h2
          exact Or.inl h2
        | some tgt =>
          rw [hg] at h2
          rcases mem_addLinkIfNew _ _ _ _ h2 with h3 | h3
          · exact Or.inl h3
          · exact Or.inr ⟨tgt, getElem?_mem_list _ _ _ hg, h3⟩
      · exact Or.inr h2

/-- The fold adding every node's neighbor links keeps the pairs distinct, and
only adds links between nodes of the list. -/
theorem addNodeLinks_foldl_spec (M : MathPrims) (ps : List PaperSummary)
    (pNodes : List ForceNode) :
    ∀ (es : List (Nat × ForceNode)), (∀ ip ∈ es, ip.2 ∈ pNodes) →
      ∀ links : List ForceLink,
        (NoDupLinks links → NoDupLinks (es.foldl (addNodeLinks M ps pNodes) links)) ∧
        (∀ l ∈ es.foldl (addNodeLinks M ps pNodes) links,
          l ∈ links ∨ ∃ n1, n1 ∈ pNodes ∧ ∃ n2, n2 ∈ pNodes ∧ l = ⟨n1.id, n2.id⟩) := by
  intro es
  induction es with
  | nil => intro _ links; exact ⟨fun h => h, fun l hl => Or.inl hl⟩
  | cons ip rest ih =>
    intro hes links
    have hip : ip.2 ∈ pNodes := hes ip (List.mem_cons_self _ _)
    have hrest : ∀ jp ∈ rest, jp.2 ∈ pNodes :=
      fun jp hjp => hes jp (List.mem_cons_of_mem _ hjp)
    rw [List.foldl_cons]
    refine ⟨?_, ?_⟩
    · intro h
      refine (ih hrest _).1 ?_
      rw [addNodeLinks]
      cases ps[ip.1]? with
      | none => exact h
      | some src => exact (pushNeighborLink_foldl_spec pNodes ip.2.id _ links).1 h
    · intro l hl
      rcases (ih hrest _).2 l hl with h2 | h2
      · rw [addNodeLinks] at h2
        cases hg : ps[ip.1]? with
        | none =>
          rw [hg] at h2
          exact Or.inl h2
        | some src =>
          rw [hg] at h2
          rcases (pushNeighborLink_foldl_spec pNodes ip.2.id _ links).2 l h2 with
            h3 | ⟨n2, hn2, rfl⟩
          · exact Or.inl h3
          · exact Or.inr ⟨ip.2, hip, n2, hn2, rfl⟩
      · exact Or.inr h2

/-- The k-NN link construction of one expanded cluster keeps the pairs
distinct and only links nodes of that cluster's node list. -/
theorem clusterKnnLinks_spec (M : MathPrims) (ps : List PaperSummary)
    (pNodes : List ForceNode) (links : List ForceLink) :
    (NoDupLinks links → NoDupLinks (clusterKnnLinks M ps pNodes links)) ∧
    (∀ l ∈ clusterKnnLinks M ps pNodes links,
      l ∈ links ∨ ∃ n1, n1 ∈ pNodes ∧ ∃ n2, n2 ∈ pNodes ∧ l = ⟨n1.id, n2.id⟩) :=
  addNodeLinks_foldl_spec M ps pNodes pNodes.enum
    (fun _ hip => List.snd_mem_of_mem_enum hip) links

/-- Every paper node of an expanded cluster is of paper type and carries the
cluster's id, provided its bucket only holds records of that cluster. -/
theorem clusterPaperNodes_spec (P : BuildParams) (prevPos : List (String × PrevPos))
    (label color : String) (cid : Int) (ps : List PaperSummary)
    (hbucket : ∀ p ∈ ps, p.cluster_id = some cid) :
    ∀ n ∈ clusterPaperNodes P prevPos label color cid ps,
      n.type = NodeType.paper ∧ n.clusterId = cid := by
  intro n hn
  rcases List.mem_map.mp hn with ⟨ip, hip, rfl⟩
  refine ⟨rfl, ?_⟩
  have h2 := hbucket ip.2 (List.snd_mem_of_mem_enum hip)
  simp [mkPaperNode, h2]

/-- LinkIn is monotone in the node list. -/
theorem LinkIn_mono (ns1 ns2 : List ForceNode) (h : ∀ n ∈ ns1, n ∈ ns2) (l : ForceLink)
    (hl : LinkIn ns1 l) : LinkIn ns2 l := by
  rcases hl with ⟨n1, hn1, h1, t1, n2, hn2, h2, t2, hc⟩
  exact ⟨n1, h n1 hn1, h1, t1, n2, h n2 hn2, h2, t2, hc⟩

/-- One build step preserves both link invariants. -/
theorem buildClusterStep_links_spec (P : BuildParams)
    (colorMap labelMap : List (Int × String)) (expanded : Finset Int)
    (prevPos : List (String × PrevPos)) (acc : List ForceNode × List ForceLink)
    (entry : Int × List PaperSummary)
    (hbucket : ∀ p ∈ entry.2, p.cluster_id = some entry.1)
    (hnd : NoDupLinks acc.2) (hin : ∀ l ∈ acc.2, LinkIn acc.1 l) :
    NoDupLinks (buildClusterStep P colorMap labelMap expanded prevPos acc entry).2 ∧
    ∀ l ∈ (buildClusterStep P colorMap labelMap expanded prevPos acc entry).2,
      LinkIn (buildClusterStep P colorMap labelMap expanded prevPos acc entry).1 l := by
  by_cases hmem : entry.1 ∈ expanded
  · simp only [buildClusterStep, if_pos hmem]
    constructor
    · exact (clusterKnnLinks_spec P.M entry.2 _ acc.2).1 hnd
    · intro l hl
      rcases (clusterKnnLinks_spec P.M entry.2 _ acc.2).2 l hl with
        h2 | ⟨n1, hn1, n2, hn2, rfl⟩
      · exact LinkIn_mono acc.1 _ (fun n hn => List.mem_append_left _ hn) l (hin l h2)
      · rcases clusterPaperNodes_spec P prevPos _ _ entry.1 entry.2 hbucket n1 hn1 with
          ⟨ht1, hc1⟩
        rcases clusterPaperNodes_spec P prevPos _ _ entry.1 entry.2 hbucket n2 hn2 with
          ⟨ht2, hc2⟩
        exact ⟨n1, List.mem_append_right _ hn1, rfl, ht1,
          n2, List.mem_append_right _ hn2, rfl, ht2, by rw [hc1, hc2]⟩
  · simp only [buildClusterStep, if_neg hmem]
    exact ⟨hnd,
      fun l hl => LinkIn_mono acc.1 _ (fun n hn => List.mem_append_left _ hn) l (hin l hl)⟩

/-- The whole per-cluster fold preserves both link invariants. -/
theorem build_fold_links (P : BuildParams) (colorMap labelMap : List (Int × String))
    (expanded : Finset Int) (prevPos : List (String × PrevPos)) :
    ∀ (entries : List (Int × List PaperSummary)),
      (∀ e ∈ entries, ∀ p ∈ e.2, p.cluster_id = some e.1) →
      ∀ acc : List ForceNode × List ForceLink,
        NoDupLinks acc.2 → (∀ l ∈ acc.2, LinkIn acc.1 l) →
        NoDupLinks
          ((entries.foldl (buildClusterStep P colorMap labelMap expanded prevPos) acc).2) ∧
        ∀ l ∈ (entries.foldl (buildClusterStep P colorMap labelMap expanded prevPos) acc).2,
          LinkIn
            ((entries.foldl (buildClusterStep P colorMap labelMap expanded prevPos) acc).1)
            l := by
  intro entries
  induction entries with
  | nil => intro _ acc h1 h2; exact ⟨h1, h2⟩
  | cons e rest ih =>
    intro hb acc h1 h2
    rw [List.foldl_cons]
    have hstep := buildClusterStep_links_spec P colorMap labelMap expanded prevPos acc e
      (hb e (List.mem_cons_self _ _)) h1 h2
    exact ih (fun e2 he2 => hb e2 (List.mem_cons_of_mem _ he2)) _ hstep.1 hstep.2

/-- C3: in every build, every k-NN edge connects two paper nodes of the node
list with equal clusterId, no unordered pair of ids appears twice in the
edge list (in either order), and each item node contributes at most k = 5
candidate neighbor edges before deduplication. -/
theorem knn_edge_invariants (P : BuildParams) (papers : List PaperSummary)
    (clusters : List ClusterInfo) (sel expanded : Finset Int) (densityPercent : Nat)
    (prevNodes : List ForceNode) :
    NoDupLinks (buildGraph P papers clusters sel expanded densityPercent prevNodes).2 ∧
    (∀ l ∈ (buildGraph P papers clusters sel expanded densityPercent prevNodes).2,
      LinkIn (buildGraph P papers clusters sel expanded densityPercent prevNodes).1 l) ∧
    (∀ (M : MathPrims) (ps : List PaperSummary) (i : Nat) (src : PaperSummary),
      (nearestNeighbors M ps i src).length ≤ 5) := by
  have hb : ∀ e ∈ sampledByCluster densityPercent sel papers,
      ∀ p ∈ e.2, p.cluster_id = some e.1 := by
    intro e he p hp
    rcases List.mem_map.mp he with ⟨e0, he0, rfl⟩
    exact (papersByCluster_inv sel papers).2.1 e0 he0 p
      (sampleCluster_subset densityPercent e0.2 p hp)
  have hmain := build_fold_links P (clusterColorMap clusters) (clusterLabelMap clusters)
    expanded (previousPositions prevNodes) (sampledByCluster densityPercent sel papers)
    hb ([], []) List.Pairwise.nil (fun l hl => absurd hl (List.not_mem_nil l))
  refine ⟨hmain.1, hmain.2, ?_⟩
  intro M ps i src
  rw [nearestNeighbors, List.length_take]
  exact min_le_left _ _

/-- Three records of cluster 0 sharing one original-space position, for the
C3 witness. -/
def papers3 : List PaperSummary := [mkPaper 1 0 0, mkPaper 2 0 0, mkPaper 3 0 0]

/-- C3, witness: in the build with cluster 0 expanded, the concrete edge
between paper 1 and paper 2 connects two paper nodes of equal clusterId. -/
theorem knn_edge_invariants_witness :
    LinkIn (buildGraph paramsW papers3 [clusterW] ∅ {0} 100 []).1
      ⟨"paper-1", "paper-2"⟩ :=
  (knn_edge_invariants paramsW papers3 [clusterW] ∅ {0} 100 []).2.1
    ⟨"paper-1", "paper-2"⟩
    (by simp +decide [buildGraph, sampledByCluster, papersByCluster, filteredPapers,
      keepPaper, sampleCluster, pushGrouped, buildClusterStep, clusterPaperNodes,
      clusterKnnLinks, addNodeLinks, pushNeighborLink, nearestNeighbors, paperDistances,
      dist3, mkPaperNode, mkPaper, papers3, clusterW, mathId, paramsW, previousPositions,
      mapGet, mapSet, clusterColorMap, clusterLabelMap, colorOf, labelOf, clusterBase,
      spiralOffset, linkExists, addLinkIfNew, distLE, sortById, idLE, ceilDivNat,
      List.insertionSort, List.orderedInsert, List.enum_cons, List.enumFrom])

end LaionGraph
